import Mathlib

/-!
Verification development for the restaurant-receptionist voice client's core:
the streaming turn reassembler (`handleTurn` / `runLoop`) and the PCM-to-WAV
framer (`parseMimeType`, `createWavHeader`, `convertToWav`) of `src/index.tsx`,
together with the base64 transport codec (`arrayBufferToBase64`,
`base64ToUint8Array`).

Modelling conventions:
- JavaScript strings are Lean `String`s; the JS string operations used by the
  source (`split`, `trim`, `startsWith`, `slice`, truthiness) are embedded as
  executable functions over `String.data` (`jsSplit`, `jsTrim`, ...), matching
  JS semantics (e.g. `"".split(';') == [""]`).
- JS numbers reached by this code are integers or `NaN`; they are embedded as
  `Int`, with `Option Int` where `NaN` can occur (`parseInt` failure maps to
  `none`).  `DataView.setUint32`/`setUint16` apply `ToUint32`/`ToUint16`:
  truncate toward zero, then reduce mod 2^32 / 2^16; `NaN` becomes `0`.
- `Uint8Array`s / byte buffers are `List Nat` with entries below 256.
- The browser's `btoa`/`atob` are embedded as RFC 4648 base64 over byte lists
  (`atob` following WHATWG forgiving-base64: ASCII whitespace stripped, `=`
  padding optional, decoding failure is `none` where `atob` throws).
- `handleTurn`'s message wait loop is embedded as `runLoop` over the finite
  list of queued messages; `none` models a turn that is still waiting
  (the real loop suspends forever if no `turnComplete` message arrives).
- The module-global mutable `audioParts` buffer is threaded explicitly through
  `handleTurn` as an input and output, exactly as the source reads and writes
  it.
-/

namespace Receptionist

/-- JS `String.prototype.split` with a single-character separator, on char
lists: `"".split(c)` is `[""]`, separators at the ends produce empty groups. -/
def jsSplitChar (sep : Char) : List Char → List (List Char)
  | [] => [[]]
  | c :: rest =>
    let r := jsSplitChar sep rest
    if c == sep then [] :: r
    else
      match r with
      | g :: gs => (c :: g) :: gs
      | [] => [[c]]

/-- JS `s.split(sep)` for a one-character separator. -/
def jsSplit (sep : Char) (s : String) : List String :=
  (jsSplitChar sep s.data).map String.mk

/-- JS `s.trim()`: strip leading and trailing whitespace. -/
def jsTrim (s : String) : String :=
  String.mk (((s.data.dropWhile Char.isWhitespace).reverse.dropWhile Char.isWhitespace).reverse)

/-- Leading decimal-digit run of a char list, as a number; `none` if there is
no leading digit. -/
def parseDigits (cs : List Char) : Option Nat :=
  let ds := cs.takeWhile Char.isDigit
  if ds.isEmpty then none
  else some (ds.foldl (fun acc c => acc * 10 + (c.toNat - 48)) 0)

/-- JS `parseInt(s, 10)`: skip leading whitespace, optional sign, read leading
decimal digits, ignore the rest; `none` models `NaN`. -/
def jsParseInt (s : String) : Option Int :=
  let cs := s.data.dropWhile Char.isWhitespace
  match cs with
  | '-' :: rest => (parseDigits rest).map (fun n => -(n : Int))
  | '+' :: rest => (parseDigits rest).map (fun n => (n : Int))
  | rest => (parseDigits rest).map (fun n => (n : Int))

/-- JS truthiness of an optional string: `undefined` and `""` are falsy. -/
def jsTruthyStr (s : Option String) : Bool :=
  match s with
  | some t => !(t == "")
  | none => false

/-- JS truthiness of an optional boolean: only `true` is truthy. -/
def jsTruthyB (b : Option Bool) : Bool := b.getD false

/-! Base64 codec: the browser's `btoa` / `atob` used by `arrayBufferToBase64`
and `base64ToUint8Array`. -/

/-- The RFC 4648 base64 alphabet. -/
def b64Alphabet : List Char :=
  "ABCDEFGHIJKLMNOPQRSTUVWXYZabcdefghijklmnopqrstuvwxyz0123456789+/".data

/-- Character for a six-bit group (the fallback is unreachable for inputs
below 64). -/
def encC (i : Nat) : Char := b64Alphabet.getD i '='

/-- Six-bit value of a base64 character; `none` for characters outside the
alphabet (including `=`). -/
def decC (c : Char) : Option Nat := b64Alphabet.findIdx? (fun d => d == c)

/-- ASCII whitespace, which forgiving-base64 decoding strips. -/
def jsAsciiWs (c : Char) : Bool :=
  c == '\t' || c == '\n' || c == '\x0C' || c == '\r' || c == ' '

/-- Browser `btoa` on a byte sequence: three bytes become four characters;
a final one- or two-byte group is padded with `=`. -/
def b64encode : List Nat → List Char
  | [] => []
  | [a] => [encC (a / 4), encC (a % 4 * 16), '=', '=']
  | [a, b] => [encC (a / 4), encC (a % 4 * 16 + b / 16), encC (b % 16 * 4), '=']
  | a :: b :: c :: rest =>
    encC (a / 4) :: encC (a % 4 * 16 + b / 16) :: encC (b % 16 * 4 + c / 64) :: encC (c % 64)
      :: b64encode rest

/-- Base64 decoding of a whitespace-free character sequence, following
WHATWG forgiving-base64: `=` padding may close the final group (or be
absent), four characters yield three bytes, a final group of two or three
characters yields one or two bytes with the low bits discarded, and any
other shape or non-alphabet character fails. -/
def b64decodeRaw : List Char → Option (List Nat)
  | [] => some []
  | [_] => none
  | [p, q] =>
    match decC p, decC q with
    | some x, some y => some [x * 4 + y / 16]
    | _, _ => none
  | [p, q, r] =>
    match decC p, decC q, decC r with
    | some x, some y, some z => some [x * 4 + y / 16, y % 16 * 16 + z / 4]
    | _, _, _ => none
  | p :: q :: r :: s :: rest =>
    if r == '=' then
      if s == '=' && rest.isEmpty then
        match decC p, decC q with
        | some x, some y => some [x * 4 + y / 16]
        | _, _ => none
      else none
    else if s == '=' then
      if rest.isEmpty then
        match decC p, decC q, decC r with
        | some x, some y, some z => some [x * 4 + y / 16, y % 16 * 16 + z / 4]
        | _, _, _ => none
      else none
    else
      match decC p, decC q, decC r, decC s, b64decodeRaw rest with
      | some x, some y, some z, some w, some tail =>
        some ((x * 4 + y / 16) :: (y % 16 * 16 + z / 4) :: (z % 4 * 64 + w) :: tail)
      | _, _, _, _, _ => none

/-- `arrayBufferToBase64` (src/index.tsx:58-66): build the binary string of
the buffer's bytes and `btoa` it.  The byte-to-char step is the identity on
code points, so the composition is base64 encoding of the byte list. -/
def arrayBufferToBase64 (b : List Nat) : String := String.mk (b64encode b)

/-- `base64ToUint8Array` (src/index.tsx:74-82): `atob` the string and read
the decoded binary string's char codes into a byte array.  `none` models the
exception `atob` throws on invalid input. -/
def base64ToUint8Array (s : String) : Option (List Nat) :=
  b64decodeRaw (s.data.filter (fun c => !jsAsciiWs c))

/-- `concatUint8Arrays` (src/index.tsx:84-93): concatenate byte arrays in
order into one buffer. -/
def concatUint8Arrays (arrays : List (List Nat)) : List Nat := arrays.flatten

/-! WAV encoder. -/

/-- `WavConversionOptions` (src/index.tsx:68-72).  `sampleRate` is
`Option Int` because the source can store `parseInt`'s `NaN` there
(`none` models `NaN`); the other two fields are always real integers. -/
structure WavConversionOptions where
  numChannels : Int
  sampleRate : Option Int
  bitsPerSample : Int
deriving DecidableEq

/-- JS `ToUint32` of an integer-or-NaN value: `NaN` maps to 0, otherwise
reduce mod 2^32 into `[0, 2^32)`. -/
def jsU32 (x : Option Int) : Nat :=
  match x with
  | none => 0
  | some i => (Int.emod i 4294967296).toNat

/-- JS `ToUint16` of an integer-or-NaN value. -/
def jsU16 (x : Option Int) : Nat :=
  match x with
  | none => 0
  | some i => (Int.emod i 65536).toNat

/-- Little-endian byte serialization of a 32-bit value (`DataView.setUint32`
with `littleEndian = true`). -/
def u32le (v : Nat) : List Nat :=
  [v % 256, v / 256 % 256, v / 65536 % 256, v / 16777216 % 256]

/-- Little-endian byte serialization of a 16-bit value. -/
def u16le (v : Nat) : List Nat :=
  [v % 256, v / 256 % 256]

/-- `createWavHeader` (src/index.tsx:95-121): the 44-byte canonical PCM WAVE
header.  Byte values are written in offset order, one chunk per
`setUint8`/`setUint16`/`setUint32` call; `byteRate` and `blockAlign` carry
the JS float division by 8, truncated toward zero by `ToUint32`/`ToUint16`
(`Int.tdiv`). -/
def createWavHeader (dataLength : Nat) (options : WavConversionOptions) : List Nat :=
  let byteRate : Option Int :=
    options.sampleRate.map (fun r => Int.tdiv (r * options.numChannels * options.bitsPerSample) 8)
  let blockAlign : Int := Int.tdiv (options.numChannels * options.bitsPerSample) 8
  [82, 73, 70, 70]
    ++ u32le ((36 + dataLength) % 4294967296)
    ++ [87, 65, 86, 69]
    ++ [102, 109, 116, 32]
    ++ u32le 16
    ++ u16le 1
    ++ u16le (jsU16 (some options.numChannels))
    ++ u32le (jsU32 options.sampleRate)
    ++ u32le (jsU32 byteRate)
    ++ u16le (jsU16 (some blockAlign))
    ++ u16le (jsU16 (some options.bitsPerSample))
    ++ [100, 97, 116, 97]
    ++ u32le (dataLength % 4294967296)

/-- Guard of `parseMimeType`'s parameter scan (src/index.tsx:140-141):
`const [key, value] = param.split('=').map(s => s.trim())`, yielding the
value exactly when `key === 'rate' && value` is truthy. -/
def rateToken (param : String) : Option String :=
  let kv := (jsSplit '=' param).map jsTrim
  let key := kv.headD ""
  let value := kv.getD 1 ""
  if key == "rate" && !(value == "") then some value else none

/-- Loop body of `parseMimeType`'s parameter scan (src/index.tsx:139-142):
when the guard passes, `options.sampleRate = parseInt(value, 10)`.  Note
there is no `isNaN` guard here, unlike the bits case. -/
def rateStep (opts : WavConversionOptions) (param : String) : WavConversionOptions :=
  match rateToken param with
  | some value => { opts with sampleRate := jsParseInt value }
  | none => opts

/-- `parseMimeType` (src/index.tsx:124-145). -/
def parseMimeType (mimeType : String) : WavConversionOptions :=
  let params := (jsSplit ';' mimeType).map jsTrim
  let formatPart := (jsSplit '/' (params.headD "")).getD 1 ""
  let options : WavConversionOptions :=
    { numChannels := 1, bitsPerSample := 16, sampleRate := some 24000 }
  let options :=
    if !(formatPart == "") && formatPart.data.head? == some 'L' then
      match jsParseInt (String.mk (formatPart.data.drop 1)) with
      | some bits => { options with bitsPerSample := bits }
      | none => options
    else options
  params.foldl rateStep options

/-- Decoding of `rawData.map(data => base64ToUint8Array(data))`
(src/index.tsx:149); a decoding failure propagates as the thrown exception
does. -/
def decodeAll : List String → Option (List (List Nat))
  | [] => some []
  | s :: rest =>
    match base64ToUint8Array s, decodeAll rest with
    | some b, some bs => some (b :: bs)
    | _, _ => none

/-- `convertToWav` (src/index.tsx:147-153). -/
def convertToWav (rawData : List String) (mimeType : String) : Option (List Nat) :=
  match decodeAll rawData with
  | none => none
  | some dataChunks =>
    let options := parseMimeType mimeType
    let data := concatUint8Arrays dataChunks
    let wavHeader := createWavHeader data.length options
    some (wavHeader ++ data)

/-! Inbound message data model (the fields of `LiveServerMessage` the source
reads, each optional exactly where the source uses `?.` / truthiness). -/

/-- `part.inlineData`: base64 audio payload and MIME type. -/
structure InlineData where
  data : Option String
  mimeType : Option String
deriving DecidableEq

/-- One part of a model turn: optional text, optional inline audio. -/
structure Part where
  text : Option String
  inlineData : Option InlineData
deriving DecidableEq

/-- `serverContent.modelTurn`, with its optional parts array. -/
structure ModelTurn where
  parts : Option (List Part)
deriving DecidableEq

/-- `message.serverContent`. -/
structure ServerContent where
  modelTurn : Option ModelTurn
  turnComplete : Option Bool
deriving DecidableEq

/-- An inbound `LiveServerMessage`. -/
structure LiveServerMessage where
  serverContent : Option ServerContent
deriving DecidableEq

/-- Mutable state of one `handleTurn` execution: the locals `turnText`,
`audioMimeType`, `turnComplete` plus the module-global `audioParts` the loop
writes through. -/
structure TurnState where
  turnText : String
  audioParts : List String
  audioMimeType : String
  turnComplete : Bool
deriving DecidableEq

/-- `message.serverContent?.turnComplete` truthiness (src/index.tsx:194). -/
def isCompleteMsg (m : LiveServerMessage) : Bool :=
  match m.serverContent with
  | some sc => jsTruthyB sc.turnComplete
  | none => false

/-- The parts array the loop iterates (src/index.tsx:181-182); an absent
`serverContent`, `modelTurn` or `parts` yields nothing to iterate. -/
def msgParts (m : LiveServerMessage) : List Part :=
  match m.serverContent with
  | some sc =>
    match sc.modelTurn with
    | some mt => mt.parts.getD []
    | none => []
  | none => []

/-- Text handling of one part (src/index.tsx:183-186): `if (part.text)
turnText += part.text`. -/
def processTextPart (st : TurnState) (p : Part) : TurnState :=
  if jsTruthyStr p.text then { st with turnText := st.turnText ++ p.text.getD "" }
  else st

/-- Audio handling of one part (src/index.tsx:187-190): `if
(part.inlineData?.data) { audioParts.push(...); if (!audioMimeType)
audioMimeType = part.inlineData.mimeType || '' }`. -/
def processAudioPart (st : TurnState) (p : Part) : TurnState :=
  match p.inlineData with
  | some d =>
    if jsTruthyStr d.data then
      { st with
        audioParts := st.audioParts ++ [d.data.getD ""],
        audioMimeType := if st.audioMimeType == "" then d.mimeType.getD "" else st.audioMimeType }
    else st
  | none => st

/-- One part's full effect, text first then audio, as in the source's loop
body. -/
def processPart (st : TurnState) (p : Part) : TurnState :=
  processAudioPart (processTextPart st p) p

/-- One dequeued message's effect on the turn state (src/index.tsx:181-196):
process each part in delivery order, then latch `turnComplete`. -/
def processMessage (st : TurnState) (m : LiveServerMessage) : TurnState :=
  let st1 := (msgParts m).foldl processPart st
  if isCompleteMsg m then { st1 with turnComplete := true } else st1

/-- State at turn start: fresh locals, but `audioParts` is the module-global
buffer carried over from before the turn (the source never clears it at turn
start). -/
def initTurnState (g : List String) : TurnState :=
  { turnText := "", audioParts := g, audioMimeType := "", turnComplete := false }

/-- The `while (!turnComplete)` consumption loop over the queued messages.
`none` means the queue ran out with no `turnComplete` seen: the real loop
keeps waiting (it never exits). -/
def runLoop : TurnState → List LiveServerMessage → Option (TurnState × List LiveServerMessage)
  | _, [] => none
  | st, m :: rest =>
    let st1 := processMessage st m
    if st1.turnComplete then some (st1, rest) else runLoop st1 rest

/-- Result of one completed turn: the transcript and the WAV bytes, if any. -/
structure TurnResult where
  transcript : String
  audio : Option (List Nat)
deriving DecidableEq

/-- `handleTurn` (src/index.tsx:169-212) on the explicit global buffer `g`
and queue `q`: returns the turn's result, the new value of the global
`audioParts` buffer, and the messages left in the queue.  The buffer is reset
to `[]` only in the branch that produces a WAV, exactly as in the source. -/
def handleTurn (g : List String) (q : List LiveServerMessage) :
    Option (TurnResult × List String × List LiveServerMessage) :=
  match runLoop (initTurnState g) q with
  | none => none
  | some (st, rest) =>
    if 0 < st.audioParts.length ∧ st.audioMimeType ≠ "" then
      match convertToWav st.audioParts st.audioMimeType with
      | some wav => some ({ transcript := st.turnText, audio := some wav }, [], rest)
      | none => none
    else
      some ({ transcript := st.turnText, audio := none }, st.audioParts, rest)

/-! Specification-side definitions, written from the spec's words, to be
compared with the source-derived functions above. -/

/-- Spec §4.2 header table: the 44-byte layout with each multi-byte field the
little-endian `uint32`/`uint16` image of the computed value
(`byteRate = sampleRate*channels*bitsPerSample/8`,
`blockAlign = channels*bitsPerSample/8`, integer arithmetic). -/
def wavHeaderSpec (dataLength channels sampleRate bitsPerSample : Nat) : List Nat :=
  [82, 73, 70, 70]
    ++ u32le ((36 + dataLength) % 4294967296)
    ++ [87, 65, 86, 69]
    ++ [102, 109, 116, 32]
    ++ u32le 16
    ++ u16le 1
    ++ u16le (channels % 65536)
    ++ u32le (sampleRate % 4294967296)
    ++ u32le (sampleRate * channels * bitsPerSample / 8 % 4294967296)
    ++ u16le (channels * bitsPerSample / 8 % 65536)
    ++ u16le (bitsPerSample % 65536)
    ++ [100, 97, 116, 97]
    ++ u32le (dataLength % 4294967296)

/-- Reader for the header fields per the spec §4.2 layout: channels from
bytes 22-23, sample rate from bytes 24-27, bits per sample from bytes 34-35,
data length from bytes 40-43 (little-endian); `none` if fewer than 44 bytes. -/
def readWavHeader (bytes : List Nat) : Option (Nat × Nat × Nat × Nat) :=
  match bytes with
  | _ :: _ :: _ :: _ :: _ :: _ :: _ :: _ :: _ :: _ :: _ :: _ :: _ :: _ :: _ :: _ :: _ :: _ ::
    _ :: _ :: _ :: _ :: c0 :: c1 :: s0 :: s1 :: s2 :: s3 :: _ :: _ :: _ :: _ :: _ :: _ ::
    b0 :: b1 :: _ :: _ :: _ :: _ :: d0 :: d1 :: d2 :: d3 :: _ =>
    some (c0 + 256 * c1,
          s0 + 256 * s1 + 65536 * s2 + 16777216 * s3,
          b0 + 256 * b1,
          d0 + 256 * d1 + 65536 * d2 + 16777216 * d3)
  | _ => none

/-- Text carried by one part (empty for a non-text part). -/
def partText (p : Part) : String := p.text.getD ""

/-- Concatenation, in order, of the text of a part list. -/
def partsTextConcat (ps : List Part) : String :=
  ps.foldl (fun acc p => acc ++ partText p) ""

/-- Concatenation, in arrival order, of every text part of a message list. -/
def transcriptSpec (ms : List LiveServerMessage) : String :=
  ms.foldl (fun acc m => acc ++ partsTextConcat (msgParts m)) ""

/-- The mimeType one part can latch: present only when the part carries
truthy audio data and its defaulted mimeType is non-empty. -/
def partMimeSet (p : Part) : Option String :=
  match p.inlineData with
  | some d =>
    if jsTruthyStr d.data && !(d.mimeType.getD "" == "") then some (d.mimeType.getD "")
    else none
  | none => none

/-- The mimeType recorded by the loop: the first AudioPart carrying data
whose (defaulted) mimeType is non-empty. -/
def firstAudioMime (ps : List Part) : Option String :=
  ps.findSome? partMimeSet

/-- Rate tokens of the parameter list: the (trimmed) non-empty values of
`rate=`-parameters, in order. -/
def rateTokens (params : List String) : List String :=
  params.filterMap rateToken

/-- Amended-spec MIME parser: channels are always 1; bitsPerSample is 16
unless the subtype is `L` followed by a `parseInt`-parseable number; an
absent `rate` parameter (or one with an empty value) leaves the default
`sampleRate = 24000`, while a present non-empty `rate` value is passed to
`parseInt` unguarded, so a malformed value yields `NaN` (the last `rate`
parameter wins). -/
def parseMimeTypeSpec (mimeType : String) : WavConversionOptions :=
  let params := (jsSplit ';' mimeType).map jsTrim
  let formatPart := (jsSplit '/' (params.headD "")).getD 1 ""
  let bits : Int :=
    if !(formatPart == "") && formatPart.data.head? == some 'L' then
      match jsParseInt (String.mk (formatPart.data.drop 1)) with
      | some b => b
      | none => 16
    else 16
  let rate : Option Int :=
    match (rateTokens params).getLast? with
    | none => some 24000
    | some v => jsParseInt v
  { numChannels := 1, bitsPerSample := bits, sampleRate := rate }

/-! Concrete message constructors for witnesses and counterexamples. -/

/-- A message carrying a single text part. -/
def msgText (t : String) : LiveServerMessage :=
  ⟨some ⟨some ⟨some [⟨some t, none⟩]⟩, none⟩⟩

/-- An audio-only part with payload `d` and mimeType `m`. -/
def partAudio (d m : String) : Part :=
  ⟨none, some ⟨some d, some m⟩⟩

/-- A message carrying a single audio part. -/
def msgAudio (d m : String) : LiveServerMessage :=
  ⟨some ⟨some ⟨some [partAudio d m]⟩, none⟩⟩

/-- A bare `turnComplete` message with no parts. -/
def msgComplete : LiveServerMessage :=
  ⟨some ⟨none, some true⟩⟩

/-! String concatenation facts used by the transcript lemmas. -/

theorem string_append_empty (s : String) : s ++ "" = s := by
  cases s with
  | mk d =>
    show String.mk (d ++ []) = String.mk d
    rw [List.append_nil]

theorem string_empty_append (s : String) : "" ++ s = s := by
  cases s with
  | mk d => rfl

theorem string_append_assoc (a b c : String) : a ++ b ++ c = a ++ (b ++ c) := by
  cases a; cases b; cases c
  show String.mk _ = String.mk _
  rw [List.append_assoc]

/-! Base64 alphabet facts. -/

theorem b64Alphabet_length : b64Alphabet.length = 64 := by decide

theorem decC_encC (i : Nat) (h : i < 64) : decC (encC i) = some i :=
  (by decide : ∀ j < 64, decC (encC j) = some j) i h

theorem encC_ne_pad (i : Nat) (h : i < 64) : (encC i == '=') = false :=
  (by decide : ∀ j < 64, (encC j == '=') = false) i h

theorem encC_ge (i : Nat) (h : 64 ≤ i) : encC i = '=' := by
  unfold encC
  apply List.getD_eq_default
  rw [b64Alphabet_length]
  exact h

theorem encC_not_ws (i : Nat) : jsAsciiWs (encC i) = false := by
  rcases Nat.lt_or_ge i 64 with h | h
  · exact (by decide : ∀ j < 64, jsAsciiWs (encC j) = false) i h
  · rw [encC_ge i h]; decide

theorem b64encode_not_ws : ∀ (b : List Nat), ∀ c ∈ b64encode b, jsAsciiWs c = false
  | [] => by simp [b64encode]
  | [a] => by
    intro c hc
    simp only [b64encode, List.mem_cons, List.not_mem_nil, or_false] at hc
    rcases hc with h | h | h | h <;> subst h
    · exact encC_not_ws _
    · exact encC_not_ws _
    · decide
    · decide
  | [a, b] => by
    intro c hc
    simp only [b64encode, List.mem_cons, List.not_mem_nil, or_false] at hc
    rcases hc with h | h | h | h <;> subst h
    · exact encC_not_ws _
    · exact encC_not_ws _
    · exact encC_not_ws _
    · decide
  | a :: b :: cc :: rest => by
    intro c hc
    simp only [b64encode, List.mem_cons] at hc
    rcases hc with h | h | h | h | h
    · subst h; exact encC_not_ws _
    · subst h; exact encC_not_ws _
    · subst h; exact encC_not_ws _
    · subst h; exact encC_not_ws _
    · exact b64encode_not_ws rest c h

/-- Decoding inverts encoding on byte lists (bytes below 256). -/
theorem b64decodeRaw_encode : ∀ (b : List Nat), (∀ x ∈ b, x < 256) →
    b64decodeRaw (b64encode b) = some b
  | [] => fun _ => rfl
  | [a] => fun h => by
    have ha : a < 256 := h a (by simp)
    have h1 : decC (encC (a / 4)) = some (a / 4) := decC_encC _ (by omega)
    have h2 : decC (encC (a % 4 * 16)) = some (a % 4 * 16) := decC_encC _ (by omega)
    simp only [b64encode, b64decodeRaw, h1, h2]
    norm_num
    omega
  | [a, b] => fun h => by
    have ha : a < 256 := h a (by simp)
    have hb : b < 256 := h b (by simp)
    have h1 : decC (encC (a / 4)) = some (a / 4) := decC_encC _ (by omega)
    have h2 : decC (encC (a % 4 * 16 + b / 16)) = some (a % 4 * 16 + b / 16) :=
      decC_encC _ (by omega)
    have h3 : decC (encC (b % 16 * 4)) = some (b % 16 * 4) := decC_encC _ (by omega)
    have hr : (encC (b % 16 * 4) == '=') = false := encC_ne_pad _ (by omega)
    simp only [b64encode, b64decodeRaw, hr, h1, h2, h3]
    norm_num
    omega
  | a :: b :: c :: rest => fun h => by
    have ha : a < 256 := h a (by simp)
    have hb : b < 256 := h b (by simp)
    have hc : c < 256 := h c (by simp)
    have h1 : decC (encC (a / 4)) = some (a / 4) := decC_encC _ (by omega)
    have h2 : decC (encC (a % 4 * 16 + b / 16)) = some (a % 4 * 16 + b / 16) :=
      decC_encC _ (by omega)
    have h3 : decC (encC (b % 16 * 4 + c / 64)) = some (b % 16 * 4 + c / 64) :=
      decC_encC _ (by omega)
    have h4 : decC (encC (c % 64)) = some (c % 64) := decC_encC _ (by omega)
    have hr : (encC (b % 16 * 4 + c / 64) == '=') = false := encC_ne_pad _ (by omega)
    have hs : (encC (c % 64) == '=') = false := encC_ne_pad _ (by omega)
    have ih := b64decodeRaw_encode rest (fun x hx => h x (by simp [hx]))
    simp only [b64encode, b64decodeRaw, hr, hs, h1, h2, h3, h4, ih]
    norm_num
    omega

/-- C10: the outbound base64 encoder and the inbound base64 decoder are
mutually inverse on arbitrary byte buffers (byte values below 256, the
`Uint8Array` invariant), so audio bytes survive the transport encoding
unchanged. -/
theorem c10_base64_roundtrip (b : List Nat) (h : ∀ x ∈ b, x < 256) :
    base64ToUint8Array (arrayBufferToBase64 b) = some b := by
  show b64decodeRaw ((b64encode b).filter (fun c => !jsAsciiWs c)) = some b
  rw [List.filter_eq_self.mpr (fun c hc => by rw [b64encode_not_ws b c hc]; rfl)]
  exact b64decodeRaw_encode b h

/-- Witness for C10 at the concrete buffer `[65, 66]` (the bytes of "AB"). -/
theorem c10_base64_roundtrip_witness :
    base64ToUint8Array (arrayBufferToBase64 [65, 66]) = some [65, 66] :=
  c10_base64_roundtrip [65, 66] (by decide)

/-! WAV header field lemmas. -/

theorem jsU32_coe (n : Nat) : jsU32 (some (n : Int)) = n % 4294967296 := by
  show ((n : Int) % 4294967296).toNat = n % 4294967296
  omega

theorem jsU16_coe (n : Nat) : jsU16 (some (n : Int)) = n % 65536 := by
  show ((n : Int) % 65536).toNat = n % 65536
  omega

theorem tdiv8_coe (m : Nat) : Int.tdiv (m : Int) 8 = ((m / 8 : Nat) : Int) := rfl

theorem createWavHeader_length (dataLength : Nat) (options : WavConversionOptions) :
    (createWavHeader dataLength options).length = 44 := rfl

/-- Evaluation of `convertToWav` once all chunks decode. -/
theorem convertToWav_eq (rawData : List String) (mimeType : String) (cs : List (List Nat))
    (hdec : decodeAll rawData = some cs) :
    convertToWav rawData mimeType
      = some (createWavHeader cs.flatten.length (parseMimeType mimeType) ++ cs.flatten) := by
  unfold convertToWav concatUint8Arrays
  rw [hdec]

/-- C1: on a turn's chunk list whose entries decode to `c1, ..., cn`
(non-empty), `convertToWav` returns exactly the 44-byte header computed from
the parsed format descriptor and the total decoded length, followed
immediately by `c1 ++ ... ++ cn` in order, with nothing else, so the output
length is `44 + sum (len ci)`. -/
theorem c1_header_concat (rawData : List String) (mimeType : String) (cs : List (List Nat))
    (hdec : decodeAll rawData = some cs) (hne : cs ≠ []) :
    convertToWav rawData mimeType
        = some (createWavHeader cs.flatten.length (parseMimeType mimeType) ++ cs.flatten)
      ∧ (convertToWav rawData mimeType).map List.length
        = some (44 + (cs.map List.length).sum) := by
  have he := convertToWav_eq rawData mimeType cs hdec
  refine ⟨he, ?_⟩
  rw [he]
  simp [createWavHeader_length, List.length_flatten]

/-- Witness for C1 at one chunk `"QUI="` (decoding to `[65, 66]`) and
mimeType `"audio/L16;rate=16000"`. -/
theorem c1_header_concat_witness :
    convertToWav ["QUI="] "audio/L16;rate=16000"
        = some (createWavHeader ([[65, 66]] : List (List Nat)).flatten.length
            (parseMimeType "audio/L16;rate=16000") ++ ([[65, 66]] : List (List Nat)).flatten)
      ∧ (convertToWav ["QUI="] "audio/L16;rate=16000").map List.length
        = some (44 + (([[65, 66]] : List (List Nat)).map List.length).sum) :=
  c1_header_concat ["QUI="] "audio/L16;rate=16000" [[65, 66]] (by decide) (by decide)

/-- C2: for every data length and every (integer) format descriptor, the
header produced by `createWavHeader` has exactly the spec's little-endian
44-byte layout (each multi-byte field the `uint32`/`uint16` image of the
prescribed value); in particular mimeType `"audio/L16;rate=16000"` with two
data bytes yields the descriptor `sampleRate = 16000`, `bitsPerSample = 16`,
`channels = 1` and a 46-byte WAV whose data section is exactly the two
bytes. -/
theorem c2_wav_header_layout :
    (∀ (dataLength channels sampleRate bitsPerSample : Nat),
      createWavHeader dataLength
          { numChannels := (channels : Int), sampleRate := some (sampleRate : Int),
            bitsPerSample := (bitsPerSample : Int) }
        = wavHeaderSpec dataLength channels sampleRate bitsPerSample)
    ∧ parseMimeType "audio/L16;rate=16000"
        = { numChannels := 1, sampleRate := some 16000, bitsPerSample := 16 }
    ∧ (convertToWav ["QUI="] "audio/L16;rate=16000").map List.length = some 46
    ∧ convertToWav ["QUI="] "audio/L16;rate=16000"
        = some (createWavHeader 2
            { numChannels := 1, sampleRate := some 16000, bitsPerSample := 16 } ++ [65, 66]) := by
  refine ⟨?_, by decide, by decide, by decide⟩
  intro dl ch r b
  have hprod : ((r : Int) * (ch : Int) * (b : Int)) = ((r * ch * b : Nat) : Int) := by
    push_cast; ring
  have hprod2 : ((ch : Int) * (b : Int)) = ((ch * b : Nat) : Int) := by
    push_cast; ring
  unfold createWavHeader wavHeaderSpec
  simp only [Option.map_some', hprod, hprod2, tdiv8_coe, jsU32_coe, jsU16_coe]

/-- C9 fails as universally quantified: a `rate` value of 2^32 is stored
mod 2^32, so the header reads back sample rate 0 while the descriptor used
to construct the file carried 4294967296. -/
theorem c9_counterexample :
    (convertToWav ["QUI="] "audio/L16;rate=4294967296").bind readWavHeader
        = some (1, 0, 16, 2)
      ∧ (parseMimeType "audio/L16;rate=4294967296").sampleRate = some 4294967296
      ∧ (4294967296 : Int) ≠ (0 : Int) :=
  ⟨by decide, by decide, by decide⟩

/-- C9 (amended): the round trip holds for every chunk sequence and mimeType
whose parsed descriptor has a numeric (non-`NaN`, nonnegative) sample rate
below 2^32, channel count and bits-per-sample below 2^16, and total decoded
data length below 2^32: reading channels from bytes 22-23, sample rate from
bytes 24-27, bits per sample from bytes 34-35 and data length from bytes
40-43 of the produced WAV recovers exactly the values used to construct
it. -/
theorem c9_roundtrip_amended (rawData : List String) (mimeType : String)
    (cs : List (List Nat)) (ch r b : Nat)
    (hdec : decodeAll rawData = some cs) (hne : cs ≠ [])
    (hparse : parseMimeType mimeType
        = { numChannels := (ch : Int), sampleRate := some (r : Int),
            bitsPerSample := (b : Int) })
    (hch : ch < 65536) (hr : r < 4294967296) (hb : b < 65536)
    (hlen : cs.flatten.length < 4294967296) :
    (convertToWav rawData mimeType).bind readWavHeader
      = some (ch, r, b, cs.flatten.length) := by
  rw [convertToWav_eq rawData mimeType cs hdec, hparse]
  have h1 := jsU16_coe ch
  have h2 := jsU32_coe r
  have h3 := jsU16_coe b
  simp only [Option.some_bind]
  simp only [createWavHeader, Option.map_some', u32le, u16le, h1, h2, h3,
    List.cons_append, List.nil_append]
  simp only [readWavHeader, Option.some.injEq, Prod.mk.injEq]
  omega

/-- Witness for the amended C9 at one chunk `"QUI="` and mimeType
`"audio/L16;rate=16000"`. -/
theorem c9_roundtrip_amended_witness :
    (convertToWav ["QUI="] "audio/L16;rate=16000").bind readWavHeader
      = some (1, 16000, 16, ([[65, 66]] : List (List Nat)).flatten.length) :=
  c9_roundtrip_amended ["QUI="] "audio/L16;rate=16000" [[65, 66]] 1 16000 16
    (by decide) (by decide) (by decide) (by decide) (by decide) (by decide) (by decide)

/-! Structural lemmas about the per-part and per-message steps. -/

theorem processTextPart_audioParts (st : TurnState) (p : Part) :
    (processTextPart st p).audioParts = st.audioParts := by
  unfold processTextPart; split <;> rfl

theorem processTextPart_audioMimeType (st : TurnState) (p : Part) :
    (processTextPart st p).audioMimeType = st.audioMimeType := by
  unfold processTextPart; split <;> rfl

theorem processTextPart_turnComplete (st : TurnState) (p : Part) :
    (processTextPart st p).turnComplete = st.turnComplete := by
  unfold processTextPart; split <;> rfl

theorem processAudioPart_turnText (st : TurnState) (p : Part) :
    (processAudioPart st p).turnText = st.turnText := by
  unfold processAudioPart
  cases p.inlineData with
  | none => rfl
  | some d => dsimp; split <;> rfl

theorem processAudioPart_turnComplete (st : TurnState) (p : Part) :
    (processAudioPart st p).turnComplete = st.turnComplete := by
  unfold processAudioPart
  cases p.inlineData with
  | none => rfl
  | some d => dsimp; split <;> rfl

theorem processPart_turnComplete (st : TurnState) (p : Part) :
    (processPart st p).turnComplete = st.turnComplete := by
  unfold processPart
  rw [processAudioPart_turnComplete, processTextPart_turnComplete]

theorem processPart_turnText (st : TurnState) (p : Part) :
    (processPart st p).turnText = st.turnText ++ partText p := by
  unfold processPart
  rw [processAudioPart_turnText]
  unfold processTextPart partText
  cases hp : p.text with
  | none =>
    rw [if_neg (by decide)]
    exact (string_append_empty _).symm
  | some t =>
    by_cases ht : t = ""
    · subst ht
      rw [if_neg (by decide)]
      exact (string_append_empty _).symm
    · have htr : jsTruthyStr (some t) = true := by
        simp [jsTruthyStr, ht]
      rw [if_pos htr]

theorem processAudioPart_audioMimeType_ne (st : TurnState) (p : Part)
    (h : st.audioMimeType ≠ "") :
    (processAudioPart st p).audioMimeType = st.audioMimeType := by
  unfold processAudioPart
  cases p.inlineData with
  | none => rfl
  | some d =>
    dsimp
    split
    · dsimp
      rw [if_neg (by simp [h])]
    · rfl

theorem processPart_audioMimeType_ne (st : TurnState) (p : Part)
    (h : st.audioMimeType ≠ "") :
    (processPart st p).audioMimeType = st.audioMimeType := by
  unfold processPart
  rw [processAudioPart_audioMimeType_ne _ p (by rw [processTextPart_audioMimeType]; exact h),
    processTextPart_audioMimeType]

theorem processAudioPart_audioMimeType_empty (st : TurnState) (p : Part)
    (h : st.audioMimeType = "") :
    (processAudioPart st p).audioMimeType = (partMimeSet p).getD "" := by
  unfold processAudioPart partMimeSet
  cases p.inlineData with
  | none => exact h
  | some d =>
    dsimp
    by_cases hd : jsTruthyStr d.data = true
    · rw [if_pos hd]
      dsimp
      rw [if_pos (by simp [h]), hd]
      by_cases hm : d.mimeType.getD "" = ""
      · rw [hm]; rfl
      · rw [if_pos (by simp [hm])]
        rfl
    · rw [if_neg hd]
      rw [Bool.not_eq_true] at hd
      rw [hd]
      exact h

theorem processPart_audioMimeType_empty (st : TurnState) (p : Part)
    (h : st.audioMimeType = "") :
    (processPart st p).audioMimeType = (partMimeSet p).getD "" := by
  unfold processPart
  rw [processAudioPart_audioMimeType_empty _ p (by rw [processTextPart_audioMimeType]; exact h)]

/-! Accumulation lemmas over part lists and message lists. -/

theorem foldl_append_partText (ps : List Part) :
    ∀ acc : String, ps.foldl (fun a p => a ++ partText p) acc = acc ++ partsTextConcat ps := by
  induction ps with
  | nil => intro acc; exact (string_append_empty acc).symm
  | cons p ps ih =>
    intro acc
    show ps.foldl _ (acc ++ partText p) = acc ++ partsTextConcat (p :: ps)
    rw [ih (acc ++ partText p)]
    show acc ++ partText p ++ partsTextConcat ps
      = acc ++ ps.foldl (fun a q => a ++ partText q) ("" ++ partText p)
    rw [ih ("" ++ partText p), string_append_assoc, string_empty_append]

theorem partsTextConcat_cons (p : Part) (ps : List Part) :
    partsTextConcat (p :: ps) = partText p ++ partsTextConcat ps := by
  show ps.foldl _ ("" ++ partText p) = _
  rw [foldl_append_partText ps ("" ++ partText p), string_empty_append]

theorem foldl_processPart_turnText (ps : List Part) :
    ∀ st : TurnState, (ps.foldl processPart st).turnText = st.turnText ++ partsTextConcat ps := by
  induction ps with
  | nil => intro st; exact (string_append_empty _).symm
  | cons p ps ih =>
    intro st
    show (ps.foldl processPart (processPart st p)).turnText = _
    rw [ih (processPart st p), processPart_turnText, partsTextConcat_cons,
      string_append_assoc]

theorem foldl_processPart_turnComplete (ps : List Part) :
    ∀ st : TurnState, (ps.foldl processPart st).turnComplete = st.turnComplete := by
  induction ps with
  | nil => intro st; rfl
  | cons p ps ih =>
    intro st
    show (ps.foldl processPart (processPart st p)).turnComplete = _
    rw [ih (processPart st p), processPart_turnComplete]

theorem foldl_processPart_audioMimeType_ne (ps : List Part) :
    ∀ st : TurnState, st.audioMimeType ≠ "" →
      (ps.foldl processPart st).audioMimeType = st.audioMimeType := by
  induction ps with
  | nil => intro st _; rfl
  | cons p ps ih =>
    intro st h
    show (ps.foldl processPart (processPart st p)).audioMimeType = _
    rw [ih (processPart st p) (by rw [processPart_audioMimeType_ne st p h]; exact h),
      processPart_audioMimeType_ne st p h]

theorem foldl_processPart_audioMimeType_empty (ps : List Part) :
    ∀ st : TurnState, st.audioMimeType = "" →
      (ps.foldl processPart st).audioMimeType = (firstAudioMime ps).getD "" := by
  induction ps with
  | nil => intro st h; exact h
  | cons p ps ih =>
    intro st h
    show (ps.foldl processPart (processPart st p)).audioMimeType
      = (firstAudioMime (p :: ps)).getD ""
    unfold firstAudioMime
    rw [List.findSome?_cons]
    cases hm : partMimeSet p with
    | none =>
      have hempty : (processPart st p).audioMimeType = "" := by
        rw [processPart_audioMimeType_empty st p h, hm]
        rfl
      rw [ih (processPart st p) hempty]
      rfl
    | some v =>
      have hv : v ≠ "" := by
        unfold partMimeSet at hm
        cases hd : p.inlineData with
        | none => rw [hd] at hm; exact absurd hm (by simp)
        | some d =>
          rw [hd] at hm
          dsimp at hm
          by_cases hc : (jsTruthyStr d.data && !(d.mimeType.getD "" == "")) = true
          · rw [if_pos hc] at hm
            have hne2 : ¬(d.mimeType.getD "" == "") = true := by
              intro hx
              rw [Bool.and_eq_true] at hc
              rw [hx] at hc
              exact absurd hc.2 (by decide)
            intro hveq
            apply hne2
            have : d.mimeType.getD "" = v := by
              injection hm
            rw [this, hveq]
            rfl
          · rw [if_neg hc] at hm
            exact absurd hm (by simp)
      have hset : (processPart st p).audioMimeType = v := by
        rw [processPart_audioMimeType_empty st p h, hm]
        rfl
      rw [foldl_processPart_audioMimeType_ne ps (processPart st p) (by rw [hset]; exact hv),
        hset]
      rfl

theorem processMessage_turnComplete (st : TurnState) (m : LiveServerMessage) :
    (processMessage st m).turnComplete = (st.turnComplete || isCompleteMsg m) := by
  unfold processMessage
  by_cases h : isCompleteMsg m = true
  · rw [if_pos h, h, Bool.or_true]
  · rw [if_neg h]
    rw [Bool.not_eq_true] at h
    rw [h, Bool.or_false, foldl_processPart_turnComplete]

theorem processMessage_turnText (st : TurnState) (m : LiveServerMessage) :
    (processMessage st m).turnText = st.turnText ++ partsTextConcat (msgParts m) := by
  unfold processMessage
  by_cases h : isCompleteMsg m = true
  · rw [if_pos h]
    exact foldl_processPart_turnText (msgParts m) st
  · rw [if_neg h]
    exact foldl_processPart_turnText (msgParts m) st

theorem foldl_append_msgText (ms : List LiveServerMessage) :
    ∀ acc : String,
      ms.foldl (fun a m => a ++ partsTextConcat (msgParts m)) acc = acc ++ transcriptSpec ms := by
  induction ms with
  | nil => intro acc; exact (string_append_empty acc).symm
  | cons m ms ih =>
    intro acc
    show ms.foldl _ (acc ++ partsTextConcat (msgParts m)) = acc ++ transcriptSpec (m :: ms)
    rw [ih (acc ++ partsTextConcat (msgParts m))]
    show acc ++ partsTextConcat (msgParts m) ++ transcriptSpec ms
      = acc ++ ms.foldl (fun a q => a ++ partsTextConcat (msgParts q)) ("" ++ partsTextConcat (msgParts m))
    rw [ih ("" ++ partsTextConcat (msgParts m)), string_append_assoc, string_empty_append]

theorem transcriptSpec_cons (m : LiveServerMessage) (ms : List LiveServerMessage) :
    transcriptSpec (m :: ms) = partsTextConcat (msgParts m) ++ transcriptSpec ms := by
  show ms.foldl _ ("" ++ partsTextConcat (msgParts m)) = _
  rw [foldl_append_msgText ms ("" ++ partsTextConcat (msgParts m)), string_empty_append]

theorem foldl_processMessage_turnText (ms : List LiveServerMessage) :
    ∀ st : TurnState, (ms.foldl processMessage st).turnText = st.turnText ++ transcriptSpec ms := by
  induction ms with
  | nil => intro st; exact (string_append_empty _).symm
  | cons m ms ih =>
    intro st
    show (ms.foldl processMessage (processMessage st m)).turnText = _
    rw [ih (processMessage st m), processMessage_turnText, transcriptSpec_cons,
      string_append_assoc]

theorem foldl_processMessage_turnComplete (ms : List LiveServerMessage) :
    ∀ st : TurnState,
      (ms.foldl processMessage st).turnComplete = (st.turnComplete || ms.any isCompleteMsg) := by
  induction ms with
  | nil => intro st; exact (Bool.or_false _).symm
  | cons m ms ih =>
    intro st
    show (ms.foldl processMessage (processMessage st m)).turnComplete = _
    rw [ih (processMessage st m), processMessage_turnComplete, List.any_cons,
      Bool.or_assoc]

/-! The consumption loop. -/

theorem runLoop_reaches_complete (pre : List LiveServerMessage) :
    ∀ (st : TurnState) (mLast : LiveServerMessage) (rest : List LiveServerMessage),
      st.turnComplete = false → (∀ m ∈ pre, isCompleteMsg m = false) →
      isCompleteMsg mLast = true →
      runLoop st (pre ++ mLast :: rest)
        = some ((pre ++ [mLast]).foldl processMessage st, rest) := by
  induction pre with
  | nil =>
    intro st mLast rest hst _ hlast
    show runLoop st (mLast :: rest) = _
    unfold runLoop
    rw [if_pos (by rw [processMessage_turnComplete, hst, hlast]; rfl)]
    rfl
  | cons p pre ih =>
    intro st mLast rest hst hpre hlast
    show runLoop st (p :: (pre ++ mLast :: rest)) = _
    unfold runLoop
    have hp : isCompleteMsg p = false := hpre p (by simp)
    have h1 : (processMessage st p).turnComplete = false := by
      rw [processMessage_turnComplete, hst, hp]
      rfl
    rw [if_neg (by rw [h1]; decide)]
    rw [ih (processMessage st p) mLast rest h1 (fun m hm => hpre m (by simp [hm])) hlast]
    rfl

theorem runLoop_isSome_iff (q : List LiveServerMessage) :
    ∀ st : TurnState, st.turnComplete = false →
      ((runLoop st q).isSome = true ↔ ∃ m ∈ q, isCompleteMsg m = true) := by
  induction q with
  | nil =>
    intro st _
    show (none : Option (TurnState × List LiveServerMessage)).isSome = true ↔ _
    simp
  | cons m rest ih =>
    intro st hst
    show (if (processMessage st m).turnComplete = true then _ else runLoop (processMessage st m) rest).isSome = true ↔ _
    by_cases hm : isCompleteMsg m = true
    · rw [if_pos (by rw [processMessage_turnComplete, hst, hm]; rfl)]
      simp [hm]
    · rw [Bool.not_eq_true] at hm
      have h1 : (processMessage st m).turnComplete = false := by
        rw [processMessage_turnComplete, hst, hm]
        rfl
      rw [if_neg (by rw [h1]; decide)]
      rw [ih (processMessage st m) h1]
      constructor
      · rintro ⟨w, hw, hcw⟩
        exact ⟨w, by simp [hw], hcw⟩
      · rintro ⟨w, hw, hcw⟩
        rcases List.mem_cons.mp hw with rfl | hw2
        · rw [hm] at hcw; exact absurd hcw (by decide)
        · exact ⟨w, hw2, hcw⟩

/-- C3: for the messages one turn consumes (those up to and including the
first with a truthy `turnComplete`), the final transcript is the
concatenation, in arrival order, of the text of every text part in those
messages, however the parts are grouped and whatever audio is
interleaved. -/
theorem c3_transcript_concat (g : List String) (pre : List LiveServerMessage)
    (mLast : LiveServerMessage) (rest : List LiveServerMessage)
    (h1 : ∀ m ∈ pre, isCompleteMsg m = false) (h2 : isCompleteMsg mLast = true) :
    runLoop (initTurnState g) (pre ++ mLast :: rest)
        = some ((pre ++ [mLast]).foldl processMessage (initTurnState g), rest)
      ∧ ((pre ++ [mLast]).foldl processMessage (initTurnState g)).turnText
        = transcriptSpec (pre ++ [mLast]) := by
  refine ⟨runLoop_reaches_complete pre (initTurnState g) mLast rest rfl h1 h2, ?_⟩
  rw [foldl_processMessage_turnText]
  exact string_empty_append _

/-- Witness for C3: scenario 1, messages `text "Hel"`, `text "lo"`, then a
bare `turnComplete`, give transcript `"Hello"`. -/
theorem c3_transcript_concat_witness :
    (runLoop (initTurnState []) ([msgText "Hel", msgText "lo"] ++ msgComplete :: [])
        = some (([msgText "Hel", msgText "lo"] ++ [msgComplete]).foldl processMessage
            (initTurnState []), [])
      ∧ (([msgText "Hel", msgText "lo"] ++ [msgComplete]).foldl processMessage
          (initTurnState [])).turnText
        = transcriptSpec ([msgText "Hel", msgText "lo"] ++ [msgComplete]))
    ∧ transcriptSpec ([msgText "Hel", msgText "lo"] ++ [msgComplete]) = "Hello" :=
  ⟨c3_transcript_concat [] [msgText "Hel", msgText "lo"] msgComplete [] (by decide) (by decide),
   by decide⟩

/-- C4: a turn completes exactly when some dequeued message has a truthy
`turnComplete`, independent of its parts; on a queue with no such message
the loop never sets `complete` (and the step function latches completion
only from such a message). -/
theorem c4_turn_completion (st : TurnState) (q : List LiveServerMessage)
    (h : st.turnComplete = false) :
    ((runLoop st q).isSome = true ↔ ∃ m ∈ q, isCompleteMsg m = true)
    ∧ (∀ m, (processMessage st m).turnComplete = isCompleteMsg m)
    ∧ ((∀ m ∈ q, isCompleteMsg m = false) → (q.foldl processMessage st).turnComplete = false) := by
  refine ⟨runLoop_isSome_iff q st h, ?_, ?_⟩
  · intro m
    rw [processMessage_turnComplete, h, Bool.false_or]
  · intro hall
    rw [foldl_processMessage_turnComplete, h, Bool.false_or]
    simp only [List.any_eq_false]
    intro m hm
    rw [hall m hm]
    decide

/-- Witness for C4 at the one-message queue holding only a bare
`turnComplete` message. -/
theorem c4_turn_completion_witness :
    ((runLoop (initTurnState []) [msgComplete]).isSome = true
        ↔ ∃ m ∈ [msgComplete], isCompleteMsg m = true)
    ∧ (∀ m, (processMessage (initTurnState []) m).turnComplete = isCompleteMsg m)
    ∧ ((∀ m ∈ [msgComplete], isCompleteMsg m = false)
        → (([msgComplete] : List LiveServerMessage).foldl processMessage
            (initTurnState [])).turnComplete = false) :=
  c4_turn_completion (initTurnState []) [msgComplete] rfl

/-- C5 names a real bug: a turn that buffers audio chunks but never sees a
mimeType produces no WAV, and the source resets the global `audioParts`
buffer only inside the WAV-producing branch, so the chunks leak into the
next turn.  Here turn 1 buffers the bytes of "AB" with an empty mimeType;
turn 2 receives only the bytes of "CD", yet its WAV data section is
`[65, 66, 67, 68]` — turn 1's bytes followed by its own — instead of
`[67, 68]`. -/
theorem c5_cross_turn_leak :
    handleTurn [] [msgAudio "QUI=" "", msgComplete]
        = some ({ transcript := "", audio := none }, ["QUI="], [])
      ∧ (handleTurn ["QUI="] [msgAudio "Q0Q=" "audio/L16;rate=16000", msgComplete]).map
          (fun res => res.1.audio.map (fun w => w.drop 44))
        = some (some [65, 66, 67, 68])
      ∧ [65, 66, 67, 68] ≠ [67, 68] :=
  ⟨by decide, by decide, by decide⟩

/-! Parameter-scan lemmas for `parseMimeType`. -/

theorem getLast?_cons {α : Type} (a : α) (l : List α) :
    (a :: l).getLast? = some (match l.getLast? with | none => a | some b => b) := by
  induction l generalizing a with
  | nil => rfl
  | cons x xs ih =>
    rw [List.getLast?_cons_cons, ih x]

theorem foldl_rateStep (params : List String) :
    ∀ opts : WavConversionOptions,
      params.foldl rateStep opts
        = { opts with sampleRate :=
              match (rateTokens params).getLast? with
              | none => opts.sampleRate
              | some v => jsParseInt v } := by
  induction params with
  | nil => intro opts; rfl
  | cons p ps ih =>
    intro opts
    show ps.foldl rateStep (rateStep opts p) = _
    rw [ih (rateStep opts p)]
    unfold rateStep rateTokens
    rw [List.filterMap_cons]
    cases hp : rateToken p with
    | none => rfl
    | some v =>
      rw [getLast?_cons v (List.filterMap rateToken ps)]
      cases hl : (List.filterMap rateToken ps).getLast? with
      | none => rfl
      | some w => rfl

/-- The source parser agrees with the spec-side parser everywhere. -/
theorem parseMimeType_eq_spec (mimeType : String) :
    parseMimeType mimeType = parseMimeTypeSpec mimeType := by
  simp only [parseMimeType, parseMimeTypeSpec]
  rw [foldl_rateStep]
  generalize (List.map jsTrim (jsSplit ';' mimeType)) = params
  generalize ((jsSplit '/' (params.headD "")).getD 1 "") = fp
  split
  · split
    · rfl
    · rfl
  · rfl

/-- C6 fails as stated on a present-but-malformed `rate` value: the source
has no `isNaN` guard on the rate, so `"audio/L16;rate=abc"` stores
`parseInt("abc") = NaN` (modelled `none`) into `sampleRate`, not the default
24000. -/
theorem c6_rate_nan_counterexample :
    (parseMimeType "audio/L16;rate=abc").sampleRate = none
    ∧ ¬ (parseMimeType "audio/L16;rate=abc").sampleRate = some 24000 :=
  ⟨by decide, by decide⟩

/-- C6 (amended): for every mimeType, channels is 1, bitsPerSample is 16
unless the subtype is `L` followed by a parseable number, and sampleRate is
24000 unless a `rate` parameter with a non-empty value is present — but a
present, non-empty, malformed `rate` value yields `NaN` (not the default;
still no error is raised): `parseMimeType` coincides with the spec-side
`parseMimeTypeSpec` stating exactly these defaults. -/
theorem c6_defaults_amended (mimeType : String) :
    (parseMimeType mimeType).numChannels = 1
    ∧ parseMimeType mimeType = parseMimeTypeSpec mimeType := by
  refine ⟨?_, parseMimeType_eq_spec mimeType⟩
  rw [parseMimeType_eq_spec mimeType]
  rfl

/-- C7 fails as stated: when the first data-carrying AudioPart has an empty
mimeType, the recorded format is not that first part's mimeType — a later
part's non-empty mimeType (here `"audio/L8"`) is taken instead of being
ignored. -/
theorem c7_counterexample :
    (([partAudio "QUI=" "", partAudio "Q0Q=" "audio/L8"] : List Part).foldl processPart
        (initTurnState [])).audioMimeType = "audio/L8"
    ∧ ("audio/L8" : String) ≠ "" :=
  ⟨by decide, by decide⟩

/-- C7 (amended): within one turn the audio format records the mimeType of
the first AudioPart carrying data whose (defaulted) mimeType is non-empty
(`""` when there is none); AudioParts with an absent or empty mimeType leave
it unset, and once non-empty it is never changed by later parts. -/
theorem c7_first_nonempty_mime_amended (ps : List Part) (st : TurnState)
    (h : st.audioMimeType = "") :
    (ps.foldl processPart st).audioMimeType = (firstAudioMime ps).getD ""
    ∧ ∀ (st2 : TurnState) (p : Part), st2.audioMimeType ≠ "" →
        (processPart st2 p).audioMimeType = st2.audioMimeType :=
  ⟨foldl_processPart_audioMimeType_empty ps st h,
   fun st2 p h2 => processPart_audioMimeType_ne st2 p h2⟩

/-- Witness for the amended C7: one data-carrying part with mimeType
`"audio/L16"` records it, and a state already holding `"audio/L16"` is not
changed by a later part carrying `"audio/L8"`. -/
theorem c7_first_nonempty_mime_amended_witness :
    (([partAudio "QUI=" "audio/L16"] : List Part).foldl processPart
        (initTurnState [])).audioMimeType
      = (firstAudioMime [partAudio "QUI=" "audio/L16"]).getD ""
    ∧ (processPart ⟨"", [], "audio/L16", false⟩ (partAudio "Q0Q=" "audio/L8")).audioMimeType
      = "audio/L16" := by
  refine ⟨(c7_first_nonempty_mime_amended [partAudio "QUI=" "audio/L16"]
    (initTurnState []) rfl).1, ?_⟩
  exact (c7_first_nonempty_mime_amended [partAudio "QUI=" "audio/L16"]
    (initTurnState []) rfl).2
    ⟨"", [], "audio/L16", false⟩ (partAudio "Q0Q=" "audio/L8") (by decide)

/-- C8: an AudioPart whose data field is absent is skipped entirely — it
changes nothing in the turn state and raises no error — and a turn whose
final chunk buffer is empty or whose format was never set produces no audio
output while still returning its transcript. -/
theorem c8_skip_and_text_only :
    (∀ (st : TurnState) (mt : Option String),
        processPart st { text := none, inlineData := some { data := none, mimeType := mt } } = st)
    ∧ (∀ (g : List String) (q : List LiveServerMessage) (st : TurnState)
        (rest : List LiveServerMessage),
        runLoop (initTurnState g) q = some (st, rest) →
        st.audioParts = [] ∨ st.audioMimeType = "" →
        handleTurn g q = some ({ transcript := st.turnText, audio := none }, st.audioParts, rest)) := by
  constructor
  · intro st mt
    rfl
  · intro g q st rest hrun hcond
    unfold handleTurn
    rw [hrun]
    have hneg : ¬ (0 < st.audioParts.length ∧ st.audioMimeType ≠ "") := by
      rintro ⟨hlen, hmime⟩
      rcases hcond with hemp | hm
      · rw [hemp] at hlen
        exact absurd hlen (by decide)
      · exact hmime hm
    dsimp only
    rw [if_neg hneg]

/-- Witness for C8: a dataless AudioPart leaves the initial state unchanged,
and a text-only turn returns its transcript with no audio. -/
theorem c8_skip_and_text_only_witness :
    processPart (initTurnState [])
        { text := none, inlineData := some { data := none, mimeType := some "audio/L16" } }
      = initTurnState []
    ∧ handleTurn [] [msgText "Hi", msgComplete]
        = some ({ transcript := "Hi", audio := none }, [], []) := by
  refine ⟨c8_skip_and_text_only.1 (initTurnState []) (some "audio/L16"), ?_⟩
  exact c8_skip_and_text_only.2 [] [msgText "Hi", msgComplete]
    { turnText := "Hi", audioParts := [], audioMimeType := "", turnComplete := true } []
    (by decide) (by decide)

end Receptionist
